import Mathlib

set_option autoImplicit false
set_option maxRecDepth 100000

namespace Bootcamp

/-! # Shallow embedding of the bootcamp2025 integration scripts

This file embeds the three Python entry points of the repository —
`python.oaa.py` (the Model Builder), `seed.python.oaa.py` (the Seed variant)
and `csvupload.py` (the CSV Pusher) — as executable Lean definitions, and
proves properties of the data-mapping and push contract.

The `oaaclient` template classes (`CustomApplication`, `LocalUser`, …) are an
external library; their container behaviour is modelled from the
specification's data-model section (unique-id-keyed entities, declared-first
custom properties, duplicate identifiers rejected) together with the calls the
repository makes.  Python dictionaries are modelled as insertion-ordered
association lists, Python exceptions as `Except` faults, and process output as
explicit traces. -/

/-- The abstract access rights used by the integration
(modelled from the spec: the set of rights the permission catalog draws from). -/
inductive OAAPermission
  | DataRead
  | DataWrite
  | DataDelete
  | MetadataRead
  | MetadataWrite
deriving DecidableEq, Repr

/-- Types a custom property can be declared with. -/
inductive OAAPropertyType
  | STRING
  | BOOLEAN
deriving DecidableEq, Repr

/-- A custom-property value (Python passes strings and booleans). -/
inductive PropValue
  | S (s : String)
  | B (b : Bool)
deriving DecidableEq, Repr

/-- One role assignment held by a local user: the role identifier, whether it
applies at application scope, and the keys of the resources it is scoped to. -/
structure RoleAssignment where
  role : String
  apply_to_application : Bool
  resources : List String
deriving DecidableEq, Repr

/-- A local user of the custom application
(modelled from the spec: unique-id-keyed identity record with display name,
identity list, custom property values, role assignments, group memberships). -/
structure LocalUser where
  name : String
  unique_id : String
  identities : List String
  role_assignments : List RoleAssignment
  groups : List String
  properties : List (String × PropValue)
deriving DecidableEq, Repr

/-- A local group (unique-id-keyed; membership is recorded on the users). -/
structure LocalGroup where
  name : String
  unique_id : String
deriving DecidableEq, Repr

/-- A resource of the custom application: typed, with a bounded-length
description and custom property values. -/
structure CustomResource where
  name : String
  resource_type : String
  description : Option String
  properties : List (String × PropValue)
deriving DecidableEq, Repr

/-- A named bundle of access rights. -/
structure CustomPermission where
  name : String
  permissions : List OAAPermission
deriving DecidableEq, Repr

/-- A named local role mapping to permissions by identifier. -/
structure LocalRole where
  name : String
  unique_id : String
  permissions : List String
deriving DecidableEq, Repr

/-- The root application object.  Python dictionaries keyed by unique id are
modelled as insertion-ordered association lists. -/
structure CustomApplication where
  name : String
  application_type : String
  local_user_properties : List (String × OAAPropertyType)
  resource_properties : List (String × String × OAAPropertyType)
  custom_permissions : List CustomPermission
  local_roles : List LocalRole
  local_users : List (String × LocalUser)
  local_groups : List (String × LocalGroup)
  resources : List (String × CustomResource)
deriving DecidableEq, Repr, Inhabited

/-- Python dictionary access `d.get(k)`: first entry with the given key. -/
def dictGet {β : Type} (l : List (String × β)) (k : String) : Option β :=
  match l with
  | [] => none
  | e :: rest => if e.1 = k then some e.2 else dictGet rest k

/-- Unhandled Python exceptions terminating a run:
an `oaaclient` template violation, a dictionary `KeyError`, or an
`OAAClientError` raised while constructing the platform client. -/
inductive Fault
  | template (msg : String)
  | keyError (k : String)
  | connError
deriving DecidableEq, Repr

/-- The payload of an `OAAClientError` raised by a failed push: machine code,
human message, HTTP status code and per-item detail list. -/
structure PushError where
  error : String
  message : String
  status_code : Nat
  details : List String
deriving DecidableEq, Repr

/-- Outcome of the push call performed by the remote platform: success with a
(possibly empty) warning list, or an `OAAClientError`. -/
inductive PushOutcome
  | ok (warnings : List String)
  | err (e : PushError)
deriving DecidableEq, Repr

/-! ## Modelled oaaclient template operations

Modelled from the spec: entities are unique-id-keyed, a duplicate identifier
within a kind is rejected before push, and a custom property may only be set
once its definition was registered.  When `add_resource` is given no unique
id the resource is stored under its name (the repository never passes a
unique id for resources). -/

/-- `app.property_definitions.define_local_user_property(name, type)`. -/
def define_local_user_property (app : CustomApplication) (n : String)
    (ty : OAAPropertyType) : CustomApplication :=
  { app with local_user_properties := app.local_user_properties ++ [(n, ty)] }

/-- `app.property_definitions.define_resource_property(resource_type, name, type)`. -/
def define_resource_property (app : CustomApplication) (rtype n : String)
    (ty : OAAPropertyType) : CustomApplication :=
  { app with resource_properties := app.resource_properties ++ [(rtype, n, ty)] }

/-- `app.add_custom_permission(name, permissions)`; duplicate names rejected. -/
def add_custom_permission (app : CustomApplication) (n : String)
    (ps : List OAAPermission) : Except Fault CustomApplication :=
  if n ∈ app.custom_permissions.map CustomPermission.name then
    .error (.template ("permission already defined: " ++ n))
  else
    .ok { app with custom_permissions := app.custom_permissions ++ [⟨n, ps⟩] }

/-- `app.add_local_role(name, unique_id, permissions)`; duplicate ids rejected. -/
def add_local_role (app : CustomApplication) (n uid : String)
    (ps : List String) : Except Fault CustomApplication :=
  if uid ∈ app.local_roles.map LocalRole.unique_id then
    .error (.template ("role identifier already in use: " ++ uid))
  else
    .ok { app with local_roles := app.local_roles ++ [⟨n, uid, ps⟩] }

/-- `user.add_role(role, apply_to_application / resources)`: appends one role
assignment. -/
def local_user_add_role (lu : LocalUser) (role : String) (appScope : Bool)
    (res : List String) : LocalUser :=
  { lu with role_assignments := lu.role_assignments ++ [⟨role, appScope, res⟩] }

/-- `user.add_group(group_id)`: appends a group membership. -/
def local_user_add_group (lu : LocalUser) (g : String) : LocalUser :=
  { lu with groups := lu.groups ++ [g] }

/-- `user.set_property(name, value)`: only declared properties may be set. -/
def local_user_set_property (defs : List (String × OAAPropertyType))
    (lu : LocalUser) (pname : String) (v : PropValue) : Except Fault LocalUser :=
  if pname ∈ defs.map Prod.fst then
    .ok { lu with properties := lu.properties ++ [(pname, v)] }
  else
    .error (.template ("unknown local user property: " ++ pname))

/-- `resource.set_property(name, value)`: the property must be declared for
the resource's type. -/
def resource_set_property (defs : List (String × String × OAAPropertyType))
    (rtype : String) (r : CustomResource) (pname : String) (v : PropValue) :
    Except Fault CustomResource :=
  if ∃ d ∈ defs, d.1 = rtype ∧ d.2.1 = pname then
    .ok { r with properties := r.properties ++ [(pname, v)] }
  else
    .error (.template ("unknown resource property: " ++ pname))

/-! ## Source records (PagerDuty REST API) -/

/-- A user record returned by the source API. -/
structure PDUser where
  id : String
  name : String
  email : String
  role : String
  billed : Bool
deriving DecidableEq, Repr

/-- A team record returned by the source API.  `description` is optional
because the script explicitly guards against a missing or empty value. -/
structure PDTeam where
  id : String
  name : String
  description : Option String
  summary : String
  default_role : String
deriving DecidableEq, Repr

/-- A team-member record: `member['user']['id']` and `member['role']`. -/
structure PDMember where
  user_id : String
  role : String
deriving DecidableEq, Repr

/-! ## Model Builder (`python.oaa.py`) -/

/-- Python slicing `s[:n]` on a string: the first `n` characters. -/
def pySlice (s : String) (n : Nat) : String :=
  String.mk (s.data.take n)

/-- `team.get('description')[:255] if team.get('description') else None`:
a missing or empty (falsy) description stays `None`, otherwise the first 255
characters are kept. -/
def descTrunc : Option String → Option String
  | some s => if s = "" then none else some (pySlice s 255)
  | none => none

/-- The fixed property-definition calls for local users, in source order. -/
def pdUserProps : List (String × OAAPropertyType) :=
  [("email", OAAPropertyType.STRING), ("is_billed", OAAPropertyType.BOOLEAN)]

/-- The fixed property-definition calls for the `team` resource type. -/
def pdResourceProps : List (String × String × OAAPropertyType) :=
  [("team", "pagerduty_id", OAAPropertyType.STRING),
   ("team", "summary", OAAPropertyType.STRING),
   ("team", "default_role", OAAPropertyType.STRING)]

/-- The static ten-entry permission catalog, in source order. -/
def pdPermissions : List CustomPermission :=
  [⟨"admin", [OAAPermission.DataWrite, OAAPermission.DataRead, OAAPermission.DataDelete, OAAPermission.MetadataRead, OAAPermission.MetadataWrite]⟩,
   ⟨"limited_user", [OAAPermission.DataRead, OAAPermission.MetadataRead]⟩,
   ⟨"manager", [OAAPermission.DataWrite, OAAPermission.DataRead, OAAPermission.MetadataWrite, OAAPermission.MetadataRead]⟩,
   ⟨"observer", [OAAPermission.DataRead, OAAPermission.MetadataRead]⟩,
   ⟨"owner", [OAAPermission.DataWrite, OAAPermission.DataRead, OAAPermission.DataDelete, OAAPermission.MetadataRead, OAAPermission.MetadataWrite]⟩,
   ⟨"read_only_limited_user", [OAAPermission.MetadataRead]⟩,
   ⟨"read_only_user", [OAAPermission.DataRead, OAAPermission.MetadataRead]⟩,
   ⟨"responder", [OAAPermission.DataWrite, OAAPermission.DataRead]⟩,
   ⟨"restricted_access", [OAAPermission.MetadataRead, OAAPermission.MetadataWrite]⟩,
   ⟨"user", [OAAPermission.DataRead, OAAPermission.MetadataRead]⟩]

/-- The static nine-entry role catalog, in source order. -/
def pdRoles : List LocalRole :=
  [⟨"Global Admin", "admin", ["admin"]⟩,
   ⟨"Responder", "limited_user", ["limited_user"]⟩,
   ⟨"Observer", "observer", ["observer"]⟩,
   ⟨"Account Owner", "owner", ["owner"]⟩,
   ⟨"Limited Stakeholder", "read_only_limited_user", ["read_only_limited_user"]⟩,
   ⟨"Full Stakeholder", "read_only_user", ["read_only_user"]⟩,
   ⟨"Restricted Access", "restricted_access", ["restricted_access"]⟩,
   ⟨"User", "user", ["user"]⟩,
   ⟨"Manager", "manager", ["manager"]⟩]

/-- The application after the constructor, the property definitions and the
static permission and role catalogs, before any source data is added. -/
def initApp : CustomApplication :=
  { name := "Sample App", application_type := "PagerDuty",
    local_user_properties := pdUserProps,
    resource_properties := pdResourceProps,
    custom_permissions := pdPermissions,
    local_roles := pdRoles,
    local_users := [], local_groups := [], resources := [] }

/-- Steps 1–3 of the Model Builder: construct the application, declare the
custom properties and the static permission and role catalogs, exactly in
source order. -/
def setupApp : Except Fault CustomApplication := do
  let app : CustomApplication :=
    { name := "Sample App", application_type := "PagerDuty",
      local_user_properties := [], resource_properties := [],
      custom_permissions := [], local_roles := [],
      local_users := [], local_groups := [], resources := [] }
  let app := define_local_user_property app "email" OAAPropertyType.STRING
  let app := define_local_user_property app "is_billed" OAAPropertyType.BOOLEAN
  let app := define_resource_property app "team" "pagerduty_id" OAAPropertyType.STRING
  let app := define_resource_property app "team" "summary" OAAPropertyType.STRING
  let app := define_resource_property app "team" "default_role" OAAPropertyType.STRING
  let app ← add_custom_permission app "admin" [OAAPermission.DataWrite, OAAPermission.DataRead, OAAPermission.DataDelete, OAAPermission.MetadataRead, OAAPermission.MetadataWrite]
  let app ← add_custom_permission app "limited_user" [OAAPermission.DataRead, OAAPermission.MetadataRead]
  let app ← add_custom_permission app "manager" [OAAPermission.DataWrite, OAAPermission.DataRead, OAAPermission.MetadataWrite, OAAPermission.MetadataRead]
  let app ← add_custom_permission app "observer" [OAAPermission.DataRead, OAAPermission.MetadataRead]
  let app ← add_custom_permission app "owner" [OAAPermission.DataWrite, OAAPermission.DataRead, OAAPermission.DataDelete, OAAPermission.MetadataRead, OAAPermission.MetadataWrite]
  let app ← add_custom_permission app "read_only_limited_user" [OAAPermission.MetadataRead]
  let app ← add_custom_permission app "read_only_user" [OAAPermission.DataRead, OAAPermission.MetadataRead]
  let app ← add_custom_permission app "responder" [OAAPermission.DataWrite, OAAPermission.DataRead]
  let app ← add_custom_permission app "restricted_access" [OAAPermission.MetadataRead, OAAPermission.MetadataWrite]
  let app ← add_custom_permission app "user" [OAAPermission.DataRead, OAAPermission.MetadataRead]
  let app ← add_local_role app "Global Admin" "admin" ["admin"]
  let app ← add_local_role app "Responder" "limited_user" ["limited_user"]
  let app ← add_local_role app "Observer" "observer" ["observer"]
  let app ← add_local_role app "Account Owner" "owner" ["owner"]
  let app ← add_local_role app "Limited Stakeholder" "read_only_limited_user" ["read_only_limited_user"]
  let app ← add_local_role app "Full Stakeholder" "read_only_user" ["read_only_user"]
  let app ← add_local_role app "Restricted Access" "restricted_access" ["restricted_access"]
  let app ← add_local_role app "User" "user" ["user"]
  let app ← add_local_role app "Manager" "manager" ["manager"]
  pure app

/-- The body of the user loop of `python.oaa.py`: `add_local_user` keyed by
the source id with the email as identity, `add_role(..., apply_to_application
= True)`, then the two custom properties. -/
def processUser (app : CustomApplication) (u : PDUser) :
    Except Fault CustomApplication :=
  if u.id ∈ app.local_users.map Prod.fst then
    .error (.template ("user identifier already in use: " ++ u.id))
  else do
    let lu : LocalUser :=
      { name := u.name, unique_id := u.id, identities := [u.email],
        role_assignments := [], groups := [], properties := [] }
    let lu := local_user_add_role lu u.role true []
    let lu ← local_user_set_property app.local_user_properties lu "email" (PropValue.S u.email)
    let lu ← local_user_set_property app.local_user_properties lu "is_billed" (PropValue.B u.billed)
    .ok { app with local_users := app.local_users ++ [(u.id, lu)] }

/-- The body of the group loop: `add_local_group(name, unique_id=team id)`. -/
def processTeamGroup (app : CustomApplication) (t : PDTeam) :
    Except Fault CustomApplication :=
  if t.id ∈ app.local_groups.map Prod.fst then
    .error (.template ("group identifier already in use: " ++ t.id))
  else
    .ok { app with local_groups := app.local_groups ++ [(t.id, ⟨t.name, t.id⟩)] }

/-- The body of the resource loop: `add_resource(name, resource_type='team')`
(no unique id, so the resource is keyed by its name), the truncated
description, and the three custom properties. -/
def processTeamResource (app : CustomApplication) (t : PDTeam) :
    Except Fault CustomApplication :=
  if t.name ∈ app.resources.map Prod.fst then
    .error (.template ("resource identifier already in use: " ++ t.name))
  else do
    let r : CustomResource :=
      { name := t.name, resource_type := "team",
        description := descTrunc t.description, properties := [] }
    let r ← resource_set_property app.resource_properties "team" r "pagerduty_id" (PropValue.S t.id)
    let r ← resource_set_property app.resource_properties "team" r "summary" (PropValue.S t.summary)
    let r ← resource_set_property app.resource_properties "team" r "default_role" (PropValue.S t.default_role)
    .ok { app with resources := app.resources ++ [(t.name, r)] }

/-- Steps 1–6 of the Model Builder: setup, one `LocalUser` per fetched user,
one `LocalGroup` per team, one `Resource` per team. -/
def buildGraph (users : List PDUser) (teams : List PDTeam) :
    Except Fault CustomApplication := do
  let app ← setupApp
  let app ← List.foldlM processUser app users
  let app ← List.foldlM processTeamGroup app teams
  let app ← List.foldlM processTeamResource app teams
  pure app

/-- `resource.properties.get('pagerduty_id')`, rendered as the string the
script interpolates into the member-list URL (a missing or non-string value
would render as Python's `None`). -/
def teamIdOf (r : CustomResource) : String :=
  match dictGet r.properties "pagerduty_id" with
  | some (PropValue.S s) => s
  | _ => "None"

/-- Replace the value stored under a key, leaving the key structure alone
(the Python code mutates the user object held in the dictionary). -/
def updateEntry {β : Type} (l : List (String × β)) (k : String) (f : β → β) :
    List (String × β) :=
  l.map (fun e => if e.1 = k then (e.1, f e.2) else e)

/-- One member of the member-assignment loop:
`app.local_users[member['user']['id']].add_role(member['role'], resources=[resource])`
followed by `app.local_users[member['user']['id']].add_group(team_id)`.
Each subscript is a dictionary lookup that raises `KeyError` when the user id
is absent. -/
def processMember (resKey team_id : String) (app : CustomApplication)
    (m : PDMember) : Except Fault CustomApplication :=
  match dictGet app.local_users m.user_id with
  | none => .error (.keyError m.user_id)
  | some _ =>
    let app1 : CustomApplication :=
      { app with local_users := (updateEntry app.local_users m.user_id
          (fun lu => local_user_add_role lu m.role false [resKey])) }
    match dictGet app1.local_users m.user_id with
    | none => .error (.keyError m.user_id)
    | some _ =>
      .ok { app1 with local_users := (updateEntry app1.local_users m.user_id
              (fun lu => local_user_add_group lu team_id)) }

/-- One resource of the member-assignment loop: fetch the member list for the
team id stored on the resource and process each member. -/
def processResource (members : String → List PDMember)
    (app : CustomApplication) (e : String × CustomResource) :
    Except Fault CustomApplication :=
  List.foldlM (processMember e.1 (teamIdOf e.2)) app (members (teamIdOf e.2))

/-- Step 7 of the Model Builder: iterate the resource dictionary and assign
member roles and group memberships. -/
def assignMembers (app : CustomApplication)
    (members : String → List PDMember) : Except Fault CustomApplication :=
  List.foldlM (processResource members) app app.resources

/-! ## Push stage (shared by Model Builder and Seed variant) -/

/-- A recorded `push_application` call. -/
structure PushCall where
  provider_name : String
  data_source_name : String
  application : CustomApplication
deriving DecidableEq, Repr

/-- The observable outcome of a completed run: console output, exit status,
whether the provider had to be created, and the push call that was made. -/
structure Trace where
  stdout : List String
  stderr : List String
  exitCode : Nat
  providerCreated : Bool
  pushed : Option PushCall
deriving DecidableEq, Repr

/-- The stdout lines produced for a successful push: nothing when the
warning list is falsy, otherwise a header plus one line per warning. -/
def warnLines (ws : List String) : List String :=
  if ws = [] then []
  else "-- Push succeeded with warnings:" :: ws.map (fun w => "  - " ++ w)

/-- The stderr header line of the push error handler. -/
def errHeader (e : PushError) : String :=
  "-- Error: " ++ e.error ++ ": " ++ e.message ++ " (" ++ toString e.status_code ++ ")"

/-- The stderr lines of the push error handler: header plus one line per
detail. -/
def errLines (e : PushError) : List String :=
  errHeader e :: e.details.map (fun d => "  -- " ++ d)

/-- Client construction, provider fetch-or-create, and the guarded push call
shared verbatim by `python.oaa.py` and `seed.python.oaa.py`.  A failed client
construction is an unhandled `OAAClientError`; both push outcomes are caught,
reported, and followed by a plain `return`, so the process exits 0 either
way. -/
def pushStage (provider_name : String) (app : CustomApplication)
    (connOk providerExists : Bool) (outcome : PushOutcome) :
    Except Fault Trace :=
  if connOk then
    match outcome with
    | .ok ws =>
      .ok { stdout := warnLines ws, stderr := [], exitCode := 0,
            providerCreated := !providerExists,
            pushed := some ⟨provider_name,
                            app.name ++ " (" ++ app.application_type ++ ")",
                            app⟩ }
    | .err e =>
      .ok { stdout := [], stderr := errLines e, exitCode := 0,
            providerCreated := !providerExists,
            pushed := some ⟨provider_name,
                            app.name ++ " (" ++ app.application_type ++ ")",
                            app⟩ }
  else .error Fault.connError

/-- The whole `main()` of `python.oaa.py` as a function of the fetched source
data and the environment's responses.  An `Except.error` result is an
unhandled exception: the process dies before the push completes and exits
non-zero. -/
def mainRun (users : List PDUser) (teams : List PDTeam)
    (members : String → List PDMember) (connOk providerExists : Bool)
    (outcome : PushOutcome) : Except Fault Trace := do
  let g ← buildGraph users teams
  let g2 ← assignMembers g members
  pushStage "Lab-PagerDuty" g2 connOk providerExists outcome

/-- The application built by `seed.python.oaa.py`: only the constructor runs,
every collection stays empty. -/
def seedApp : CustomApplication :=
  { name := "Sample App", application_type := "PagerDuty",
    local_user_properties := [], resource_properties := [],
    custom_permissions := [], local_roles := [],
    local_users := [], local_groups := [], resources := [] }

/-- The whole `main()` of `seed.python.oaa.py`. -/
def seedRun (connOk providerExists : Bool) (outcome : PushOutcome) :
    Except Fault Trace :=
  pushStage "Sample-PagerDuty" seedApp connOk providerExists outcome

/-- A completed or aborted Model Builder run exits with a non-zero status:
an unhandled fault makes Python exit non-zero, a normal return exits with the
recorded code. -/
def exitsNonZero : Except Fault Trace → Prop
  | .ok t => t.exitCode ≠ 0
  | .error _ => True

/-! ## Base64 and the CSV Pusher (`csvupload.py`) -/

/-- The base64 alphabet. -/
def b64Chars : List Char :=
  "ABCDEFGHIJKLMNOPQRSTUVWXYZabcdefghijklmnopqrstuvwxyz0123456789+/".data

/-- The alphabet character of a sextet. -/
def sextetChar (n : Nat) : Char :=
  b64Chars.getD n 'A'

/-- The sextet of an alphabet character. -/
def charSextet (c : Char) : Nat :=
  b64Chars.indexOf c

/-- `base64.b64encode` on a byte list: three bytes become four alphabet
characters, a final group of one or two bytes is padded with `=`. -/
def b64encode : List Nat → List Char
  | [] => []
  | [b1] =>
    [sextetChar (b1 / 4), sextetChar (b1 % 4 * 16), '=', '=']
  | [b1, b2] =>
    [sextetChar (b1 / 4), sextetChar (b1 % 4 * 16 + b2 / 16),
     sextetChar (b2 % 16 * 4), '=']
  | b1 :: b2 :: b3 :: rest =>
    sextetChar (b1 / 4) :: sextetChar (b1 % 4 * 16 + b2 / 16) ::
    sextetChar (b2 % 16 * 4 + b3 / 64) :: sextetChar (b3 % 64) ::
    b64encode rest

/-- `base64.b64decode` on well-formed base64 text. -/
def b64decode : List Char → List Nat
  | c1 :: c2 :: c3 :: c4 :: rest =>
    let s1 := charSextet c1
    let s2 := charSextet c2
    if c3 = '=' then [s1 * 4 + s2 / 16]
    else
      let s3 := charSextet c3
      if c4 = '=' then [s1 * 4 + s2 / 16, s2 % 16 * 16 + s3 / 4]
      else
        (s1 * 4 + s2 / 16) :: (s2 % 16 * 16 + s3 / 4) ::
        (s3 % 4 * 64 + charSextet c4) :: b64decode rest
  | _ => []

/-- The JSON body of the CSV push request. -/
structure CsvPushBody where
  id : String
  data_source_id : String
  csv_data : String
deriving DecidableEq, Repr

/-- The observable outcome of a CSV Pusher run.  `fault` records an unhandled
Python exception (its traceback goes to stderr and the process exits 1);
`pushed` records the endpoint path and body of the attempted POST. -/
structure CsvTrace where
  stdout : List String
  stderr : List String
  exitCode : Nat
  fault : Option String
  pushed : Option (String × CsvPushBody)
deriving DecidableEq, Repr

/-- The templated CSV push endpoint path. -/
def csvEndpoint (provider_id data_source_id : String) : String :=
  "/api/v1/providers/custom/" ++ provider_id ++ "/datasources/" ++
    data_source_id ++ ":push_csv"

/-- The whole of `csvupload.py` as a function of the environment: `connErr`
is the stringified `OAAClientError` of a failed client construction (`none`
when construction succeeds), `fileBytes` the raw bytes of the source file.
The push error handler's first statement is `log.error(...)`, but no `log` is
ever defined in the script, so a failed push raises an unhandled `NameError`
before anything is reported and before `sys.exit(3)` is reached. -/
def csvRun (provider_id data_source_id : String) (connErr : Option String)
    (fileBytes : List Nat) (outcome : PushOutcome) : CsvTrace :=
  match connErr with
  | some msg =>
    { stdout := ["Connecting to Veza", "Error connecting to Veza tenant", msg],
      stderr := [], exitCode := 1, fault := none, pushed := none }
  | none =>
    let header := ["Connecting to Veza", "Loading CSV file", "Pushing data to Veza"]
    let body : CsvPushBody :=
      { id := provider_id, data_source_id := data_source_id,
        csv_data := String.mk (b64encode fileBytes) }
    let call := some (csvEndpoint provider_id data_source_id, body)
    match outcome with
    | .ok _ =>
      { stdout := header ++ ["Push succeeded"], stderr := [], exitCode := 0,
        fault := none, pushed := call }
    | .err _ =>
      { stdout := header, stderr := [], exitCode := 1,
        fault := some "NameError: name 'log' is not defined", pushed := call }

/-! ## Expected entity values (characterizations of the loops above) -/

/-- The local user the user loop produces for one source record. -/
def mkLocalUser (u : PDUser) : LocalUser :=
  { name := u.name, unique_id := u.id, identities := [u.email],
    role_assignments := [⟨u.role, true, []⟩], groups := [],
    properties := [("email", PropValue.S u.email),
                   ("is_billed", PropValue.B u.billed)] }

/-- The local group the group loop produces for one team. -/
def mkLocalGroup (t : PDTeam) : LocalGroup :=
  { name := t.name, unique_id := t.id }

/-- The resource the resource loop produces for one team. -/
def mkResource (t : PDTeam) : CustomResource :=
  { name := t.name, resource_type := "team",
    description := descTrunc t.description,
    properties := [("pagerduty_id", PropValue.S t.id),
                   ("summary", PropValue.S t.summary),
                   ("default_role", PropValue.S t.default_role)] }

/-! ## Concrete inputs used by counterexamples and witnesses -/

/-- A concrete push error. -/
def cErr : PushError :=
  { error := "ERR_OAA", message := "push failed", status_code := 400,
    details := ["detail one", "detail two"] }

/-- The user record of the spec's scenario. -/
def uA : PDUser :=
  { id := "U1", name := "Alice", email := "a@x.com", role := "responder",
    billed := true }

/-- A concrete team whose name differs from its source id. -/
def tA : PDTeam :=
  { id := "T1", name := "Team A", description := none,
    summary := "team summary", default_role := "manager" }

/-- The application built from no users and the single team `tA`. -/
def aApp : CustomApplication :=
  { initApp with
    local_groups := [("T1", mkLocalGroup tA)],
    resources := [("Team A", mkResource tA)] }

/-- The application built from the single user `uA` and the single team `tA`. -/
def wApp : CustomApplication :=
  { initApp with
    local_users := [("U1", mkLocalUser uA)],
    local_groups := [("T1", mkLocalGroup tA)],
    resources := [("Team A", mkResource tA)] }

/-- A 1025-character description, longer than the platform's stated
1024-character bound. -/
def dBig : String := String.mk (List.replicate 1025 'a')

/-- A concrete team carrying the over-long description `dBig`. -/
def tBig : PDTeam :=
  { id := "T9", name := "Team Big", description := some dBig,
    summary := "s", default_role := "manager" }

/-- The application built from no users and the single team `tBig`. -/
def bigApp : CustomApplication :=
  { initApp with
    local_groups := [("T9", mkLocalGroup tBig)],
    resources := [("Team Big", mkResource tBig)] }

/-- A member list containing a user id that was never fetched. -/
def mem9 : String → List PDMember := fun _ => [{ user_id := "U9", role := "responder" }]

/-- A concrete 10-byte file. -/
def bytes10 : List Nat := [72, 101, 108, 108, 111, 33, 13, 10, 0, 255]

/-- The trace of a seed run with an existing provider and a warning-free
successful push. -/
def seedTrace0 : Trace :=
  { stdout := [], stderr := [], exitCode := 0, providerCreated := false,
    pushed := some ⟨"Sample-PagerDuty", "Sample App (PagerDuty)", seedApp⟩ }

/-- The trace of an empty-data Model Builder run whose push succeeds with the
single warning `w1`. -/
def mainTraceW : Trace :=
  { stdout := ["-- Push succeeded with warnings:", "  - w1"], stderr := [],
    exitCode := 0, providerCreated := false,
    pushed := some ⟨"Lab-PagerDuty", "Sample App (PagerDuty)", initApp⟩ }

/-- The trace of a seed run whose push succeeds with the single warning `w1`. -/
def seedTraceW : Trace :=
  { stdout := ["-- Push succeeded with warnings:", "  - w1"], stderr := [],
    exitCode := 0, providerCreated := false,
    pushed := some ⟨"Sample-PagerDuty", "Sample App (PagerDuty)", seedApp⟩ }

/-- The trace of an empty-data Model Builder run whose push raises `cErr`. -/
def mainTraceE : Trace :=
  { stdout := [],
    stderr := ["-- Error: ERR_OAA: push failed (400)", "  -- detail one",
               "  -- detail two"],
    exitCode := 0, providerCreated := false,
    pushed := some ⟨"Lab-PagerDuty", "Sample App (PagerDuty)", initApp⟩ }

/-! ## Monad and association-list lemmas -/

theorem ok_bind {ε α β : Type} (a : α) (f : α → Except ε β) :
    (Except.ok a >>= f) = f a := rfl

theorem error_bind {ε α β : Type} (e : ε) (f : α → Except ε β) :
    ((Except.error e : Except ε α) >>= f) = Except.error e := rfl

theorem dictGet_eq_none_iff {β : Type} (l : List (String × β)) (k : String) :
    dictGet l k = none ↔ k ∉ l.map Prod.fst := by
  induction l with
  | nil => simp [dictGet]
  | cons e rest ih =>
    by_cases h : e.1 = k
    · simp [dictGet, h]
    · simp only [dictGet, if_neg h, List.map_cons, List.mem_cons, not_or, ih]
      constructor
      · intro hk
        exact ⟨fun hkk => h hkk.symm, hk⟩
      · intro hk
        exact hk.2

theorem updateEntry_keys {β : Type} (l : List (String × β)) (k : String)
    (f : β → β) : (updateEntry l k f).map Prod.fst = l.map Prod.fst := by
  induction l with
  | nil => rfl
  | cons e rest ih =>
    by_cases h : e.1 = k
    · simp only [updateEntry, List.map_cons] at ih ⊢
      simp [h, ih]
    · simp only [updateEntry, List.map_cons] at ih ⊢
      simp [h, ih]

theorem dictGet_updateEntry {β : Type} (l : List (String × β)) (k : String)
    (f : β → β) : dictGet (updateEntry l k f) k = (dictGet l k).map f := by
  induction l with
  | nil => rfl
  | cons e rest ih =>
    by_cases h : e.1 = k
    · simp [updateEntry, dictGet, h]
    · simp only [updateEntry] at ih
      simp [updateEntry, dictGet, h, ih]

theorem dictGet_map_key {α β : Type} (key : α → String) (val : α → β) :
    ∀ (l : List α) (u : α), u ∈ l → (l.map key).Nodup →
      dictGet (l.map (fun a => (key a, val a))) (key u) = some (val u) := by
  intro l
  induction l with
  | nil =>
    intro u hu _
    cases hu
  | cons a rest ih =>
    intro u hu hnd
    simp only [List.map_cons, List.nodup_cons] at hnd
    rcases List.mem_cons.mp hu with h | h
    · subst h
      simp [dictGet]
    · have hne : a ∈ rest ∨ key a ≠ key u := by
        by_cases hk : key a = key u
        · exact Or.inr (fun _ => hnd.1 (by rw [hk]; exact List.mem_map_of_mem key h))
        · exact Or.inr hk
      have hne2 : key a ≠ key u := by
        intro hk
        exact hnd.1 (by rw [hk]; exact List.mem_map_of_mem key h)
      simp [dictGet, hne2, ih u h hnd.2]

/-! ## Characterization of the Model Builder loops -/

theorem setupApp_eq : setupApp = Except.ok initApp := by rfl

theorem processUser_ok {app app' : CustomApplication} {u : PDUser}
    (hE : "email" ∈ app.local_user_properties.map Prod.fst)
    (hB : "is_billed" ∈ app.local_user_properties.map Prod.fst)
    (h : processUser app u = .ok app') :
    u.id ∉ app.local_users.map Prod.fst ∧
    app' = { app with local_users :=
      app.local_users ++ [(u.id, mkLocalUser u)] } := by
  by_cases hmem : u.id ∈ app.local_users.map Prod.fst
  · simp [processUser, hmem] at h
  · refine ⟨hmem, ?_⟩
    simp only [processUser, if_neg hmem, local_user_set_property, if_pos hE,
      if_pos hB, local_user_add_role, ok_bind, Except.ok.injEq] at h
    subst h
    simp [mkLocalUser]

theorem processTeamGroup_ok {app app' : CustomApplication} {t : PDTeam}
    (h : processTeamGroup app t = .ok app') :
    t.id ∉ app.local_groups.map Prod.fst ∧
    app' = { app with local_groups :=
      app.local_groups ++ [(t.id, mkLocalGroup t)] } := by
  by_cases hmem : t.id ∈ app.local_groups.map Prod.fst
  · simp [processTeamGroup, hmem] at h
  · refine ⟨hmem, ?_⟩
    simp only [processTeamGroup, if_neg hmem, Except.ok.injEq] at h
    subst h
    rfl

theorem processTeamResource_ok {app app' : CustomApplication} {t : PDTeam}
    (h1 : ∃ d ∈ app.resource_properties, d.1 = "team" ∧ d.2.1 = "pagerduty_id")
    (h2 : ∃ d ∈ app.resource_properties, d.1 = "team" ∧ d.2.1 = "summary")
    (h3 : ∃ d ∈ app.resource_properties, d.1 = "team" ∧ d.2.1 = "default_role")
    (h : processTeamResource app t = .ok app') :
    t.name ∉ app.resources.map Prod.fst ∧
    app' = { app with resources :=
      app.resources ++ [(t.name, mkResource t)] } := by
  by_cases hmem : t.name ∈ app.resources.map Prod.fst
  · simp [processTeamResource, hmem] at h
  · refine ⟨hmem, ?_⟩
    simp only [processTeamResource, if_neg hmem, resource_set_property,
      if_pos h1, if_pos h2, if_pos h3, ok_bind, Except.ok.injEq] at h
    subst h
    simp [mkResource]

theorem foldUsers_ok : ∀ (us : List PDUser) (app app' : CustomApplication),
    "email" ∈ app.local_user_properties.map Prod.fst →
    "is_billed" ∈ app.local_user_properties.map Prod.fst →
    List.foldlM processUser app us = .ok app' →
    app' = { app with local_users :=
      app.local_users ++ us.map (fun u => (u.id, mkLocalUser u)) } ∧
    ((app.local_users.map Prod.fst).Nodup →
      (app'.local_users.map Prod.fst).Nodup) := by
  intro us
  induction us with
  | nil =>
    intro app app' _ _ h
    simp only [List.foldlM] at h
    cases h
    constructor
    · simp
    · exact id
  | cons v rest ih =>
    intro app app' hE hB h
    simp only [List.foldlM] at h
    cases hv : processUser app v with
    | error e =>
      rw [hv, error_bind] at h
      cases h
    | ok a =>
      rw [hv, ok_bind] at h
      obtain ⟨hfresh, ha⟩ := processUser_ok hE hB hv
      subst ha
      obtain ⟨happ', hnd⟩ := ih _ app' (by simpa using hE) (by simpa using hB) h
      constructor
      · rw [happ']
        simp [List.append_assoc]
      · intro hnd0
        apply hnd
        simp only [List.map_append, List.map_cons, List.map_nil]
        simp [List.nodup_append, hnd0, hfresh]

theorem foldGroups_ok : ∀ (ts : List PDTeam) (app app' : CustomApplication),
    List.foldlM processTeamGroup app ts = .ok app' →
    app' = { app with local_groups :=
      app.local_groups ++ ts.map (fun t => (t.id, mkLocalGroup t)) } ∧
    ((app.local_groups.map Prod.fst).Nodup →
      (app'.local_groups.map Prod.fst).Nodup) := by
  intro ts
  induction ts with
  | nil =>
    intro app app' h
    simp only [List.foldlM] at h
    cases h
    constructor
    · simp
    · exact id
  | cons v rest ih =>
    intro app app' h
    simp only [List.foldlM] at h
    cases hv : processTeamGroup app v with
    | error e =>
      rw [hv, error_bind] at h
      cases h
    | ok a =>
      rw [hv, ok_bind] at h
      obtain ⟨hfresh, ha⟩ := processTeamGroup_ok hv
      subst ha
      obtain ⟨happ', hnd⟩ := ih _ app' h
      constructor
      · rw [happ']
        simp [List.append_assoc]
      · intro hnd0
        apply hnd
        simp only [List.map_append, List.map_cons, List.map_nil]
        simp [List.nodup_append, hnd0, hfresh]

theorem foldResources_build_ok : ∀ (ts : List PDTeam) (app app' : CustomApplication),
    (∃ d ∈ app.resource_properties, d.1 = "team" ∧ d.2.1 = "pagerduty_id") →
    (∃ d ∈ app.resource_properties, d.1 = "team" ∧ d.2.1 = "summary") →
    (∃ d ∈ app.resource_properties, d.1 = "team" ∧ d.2.1 = "default_role") →
    List.foldlM processTeamResource app ts = .ok app' →
    app' = { app with resources :=
      app.resources ++ ts.map (fun t => (t.name, mkResource t)) } ∧
    ((app.resources.map Prod.fst).Nodup →
      (app'.resources.map Prod.fst).Nodup) := by
  intro ts
  induction ts with
  | nil =>
    intro app app' _ _ _ h
    simp only [List.foldlM] at h
    cases h
    constructor
    · simp
    · exact id
  | cons v rest ih =>
    intro app app' h1 h2 h3 h
    simp only [List.foldlM] at h
    cases hv : processTeamResource app v with
    | error e =>
      rw [hv, error_bind] at h
      cases h
    | ok a =>
      rw [hv, ok_bind] at h
      obtain ⟨hfresh, ha⟩ := processTeamResource_ok h1 h2 h3 hv
      subst ha
      obtain ⟨happ', hnd⟩ := ih _ app' (by simpa using h1) (by simpa using h2)
        (by simpa using h3) h
      constructor
      · rw [happ']
        simp [List.append_assoc]
      · intro hnd0
        apply hnd
        simp only [List.map_append, List.map_cons, List.map_nil]
        simp [List.nodup_append, hnd0, hfresh]

/-- Master characterization of a successful build (steps 1–6): the catalogs
are the static constants, users and groups are keyed by the source-supplied
ids, resources are keyed by team names, and all three key lists are free of
duplicates. -/
theorem buildGraph_ok {users : List PDUser} {teams : List PDTeam}
    {app : CustomApplication} (h : buildGraph users teams = .ok app) :
    app.name = "Sample App" ∧
    app.application_type = "PagerDuty" ∧
    app.local_user_properties = pdUserProps ∧
    app.resource_properties = pdResourceProps ∧
    app.custom_permissions = pdPermissions ∧
    app.local_roles = pdRoles ∧
    app.local_users = users.map (fun u => (u.id, mkLocalUser u)) ∧
    app.local_groups = teams.map (fun t => (t.id, mkLocalGroup t)) ∧
    app.resources = teams.map (fun t => (t.name, mkResource t)) ∧
    (users.map PDUser.id).Nodup ∧
    (teams.map PDTeam.id).Nodup ∧
    (teams.map PDTeam.name).Nodup := by
  unfold buildGraph at h
  rw [setupApp_eq, ok_bind] at h
  cases hu : List.foldlM processUser initApp users with
  | error e =>
    rw [hu, error_bind] at h
    cases h
  | ok a1 =>
    rw [hu, ok_bind] at h
    obtain ⟨ha1, hnd1⟩ := foldUsers_ok users initApp a1
      (by simp [initApp, pdUserProps]) (by simp [initApp, pdUserProps]) hu
    subst ha1
    cases hg : List.foldlM processTeamGroup
        { initApp with local_users :=
          initApp.local_users ++ users.map (fun u => (u.id, mkLocalUser u)) } teams with
    | error e =>
      rw [hg, error_bind] at h
      cases h
    | ok a2 =>
      rw [hg, ok_bind] at h
      obtain ⟨ha2, hnd2⟩ := foldGroups_ok teams _ a2 hg
      subst ha2
      cases hr : List.foldlM processTeamResource _ teams with
      | error e =>
        rw [hr, error_bind] at h
        cases h
      | ok a3 =>
        rw [hr, ok_bind] at h
        obtain ⟨ha3, hnd3⟩ := foldResources_build_ok teams _ a3
          (by simp [initApp, pdResourceProps]) (by simp [initApp, pdResourceProps])
          (by simp [initApp, pdResourceProps]) hr
        subst ha3
        cases h
        refine ⟨rfl, rfl, rfl, rfl, rfl, rfl, by simp [initApp], by simp [initApp],
          by simp [initApp], ?_, ?_, ?_⟩
        · have := hnd1 (by simp [initApp])
          simpa [List.map_map, Function.comp] using this
        · have := hnd2 (by simp [initApp])
          simpa [List.map_map, Function.comp] using this
        · have := hnd3 (by simp [initApp])
          simpa [List.map_map, Function.comp] using this

/-! ## Characterization of the member-assignment loop -/

theorem teamIdOf_mkResource (t : PDTeam) : teamIdOf (mkResource t) = t.id := by
  simp [teamIdOf, mkResource, dictGet]

theorem processMember_ok_keys {rk tid : String} {app app' : CustomApplication}
    {m : PDMember} (h : processMember rk tid app m = .ok app') :
    app'.local_users.map Prod.fst = app.local_users.map Prod.fst ∧
    m.user_id ∈ app.local_users.map Prod.fst := by
  unfold processMember at h
  cases h1 : dictGet app.local_users m.user_id with
  | none =>
    simp only [h1] at h
    cases h
  | some lu =>
    simp only [h1] at h
    have h2 : dictGet (updateEntry app.local_users m.user_id
        (fun lu => local_user_add_role lu m.role false [rk])) m.user_id
        = some (local_user_add_role lu m.role false [rk]) := by
      rw [dictGet_updateEntry, h1]
      rfl
    simp only [h2] at h
    cases h
    refine ⟨by simp [updateEntry_keys], ?_⟩
    by_contra hc
    have hnone := (dictGet_eq_none_iff app.local_users m.user_id).mpr hc
    rw [hnone] at h1
    cases h1

theorem processMember_err {rk tid : String} {app : CustomApplication}
    {m : PDMember} {f : Fault} (h : processMember rk tid app m = .error f) :
    f = .keyError m.user_id ∧ m.user_id ∉ app.local_users.map Prod.fst := by
  unfold processMember at h
  cases h1 : dictGet app.local_users m.user_id with
  | none =>
    simp only [h1] at h
    cases h
    exact ⟨rfl, (dictGet_eq_none_iff _ _).mp h1⟩
  | some lu =>
    simp only [h1] at h
    have h2 : dictGet (updateEntry app.local_users m.user_id
        (fun lu => local_user_add_role lu m.role false [rk])) m.user_id
        = some (local_user_add_role lu m.role false [rk]) := by
      rw [dictGet_updateEntry, h1]
      rfl
    simp only [h2] at h
    cases h

theorem foldMembers_ok {rk tid : String} :
    ∀ (ms : List PDMember) (app app' : CustomApplication),
    List.foldlM (processMember rk tid) app ms = .ok app' →
    app'.local_users.map Prod.fst = app.local_users.map Prod.fst ∧
    ∀ m ∈ ms, m.user_id ∈ app.local_users.map Prod.fst := by
  intro ms
  induction ms with
  | nil =>
    intro app app' h
    simp only [List.foldlM] at h
    cases h
    exact ⟨rfl, by simp⟩
  | cons m rest ih =>
    intro app app' h
    simp only [List.foldlM] at h
    cases hm : processMember rk tid app m with
    | error e =>
      rw [hm, error_bind] at h
      cases h
    | ok a =>
      rw [hm, ok_bind] at h
      obtain ⟨hkeys, hmem⟩ := processMember_ok_keys hm
      obtain ⟨hkeys2, hall⟩ := ih a app' h
      refine ⟨hkeys2.trans hkeys, ?_⟩
      intro x hx
      rcases List.mem_cons.mp hx with hx | hx
      · subst hx
        exact hmem
      · have hxk := hall x hx
        rw [hkeys] at hxk
        exact hxk

theorem foldMembers_err {rk tid : String} :
    ∀ (ms : List PDMember) (app : CustomApplication) (f : Fault),
    List.foldlM (processMember rk tid) app ms = .error f →
    ∃ b, f = .keyError b ∧ b ∉ app.local_users.map Prod.fst := by
  intro ms
  induction ms with
  | nil =>
    intro app f h
    simp only [List.foldlM] at h
    cases h
  | cons m rest ih =>
    intro app f h
    simp only [List.foldlM] at h
    cases hm : processMember rk tid app m with
    | error e =>
      rw [hm, error_bind] at h
      cases h
      obtain ⟨he, hnot⟩ := processMember_err hm
      exact ⟨m.user_id, he, hnot⟩
    | ok a =>
      rw [hm, ok_bind] at h
      obtain ⟨hkeys, _⟩ := processMember_ok_keys hm
      obtain ⟨b, hb, hbnot⟩ := ih a f h
      rw [hkeys] at hbnot
      exact ⟨b, hb, hbnot⟩

theorem foldRes_ok {members : String → List PDMember} :
    ∀ (rs : List (String × CustomResource)) (app app' : CustomApplication),
    List.foldlM (processResource members) app rs = .ok app' →
    app'.local_users.map Prod.fst = app.local_users.map Prod.fst ∧
    ∀ e ∈ rs, ∀ m ∈ members (teamIdOf e.2),
      m.user_id ∈ app.local_users.map Prod.fst := by
  intro rs
  induction rs with
  | nil =>
    intro app app' h
    simp only [List.foldlM] at h
    cases h
    exact ⟨rfl, by simp⟩
  | cons e rest ih =>
    intro app app' h
    simp only [List.foldlM] at h
    cases he : processResource members app e with
    | error f =>
      rw [he, error_bind] at h
      cases h
    | ok a =>
      rw [he, ok_bind] at h
      obtain ⟨hkeys, hall1⟩ := foldMembers_ok (members (teamIdOf e.2)) app a he
      obtain ⟨hkeys2, hall2⟩ := ih a app' h
      refine ⟨hkeys2.trans hkeys, ?_⟩
      intro x hx
      rcases List.mem_cons.mp hx with hx | hx
      · subst hx
        exact hall1
      · intro m hm
        have hxk := hall2 x hx m hm
        rw [hkeys] at hxk
        exact hxk

theorem foldRes_err {members : String → List PDMember} :
    ∀ (rs : List (String × CustomResource)) (app : CustomApplication) (f : Fault),
    List.foldlM (processResource members) app rs = .error f →
    ∃ b, f = .keyError b ∧ b ∉ app.local_users.map Prod.fst := by
  intro rs
  induction rs with
  | nil =>
    intro app f h
    simp only [List.foldlM] at h
    cases h
  | cons e rest ih =>
    intro app f h
    simp only [List.foldlM] at h
    cases he : processResource members app e with
    | error f2 =>
      rw [he, error_bind] at h
      cases h
      exact foldMembers_err (members (teamIdOf e.2)) app f he
    | ok a =>
      rw [he, ok_bind] at h
      obtain ⟨hkeys, _⟩ := foldMembers_ok (members (teamIdOf e.2)) app a he
      obtain ⟨b, hb, hbnot⟩ := ih a f h
      rw [hkeys] at hbnot
      exact ⟨b, hb, hbnot⟩

theorem assignMembers_ok {app app' : CustomApplication}
    {members : String → List PDMember}
    (h : assignMembers app members = .ok app') :
    app'.local_users.map Prod.fst = app.local_users.map Prod.fst ∧
    ∀ e ∈ app.resources, ∀ m ∈ members (teamIdOf e.2),
      m.user_id ∈ app.local_users.map Prod.fst :=
  foldRes_ok app.resources app app' h

theorem assignMembers_err {app : CustomApplication}
    {members : String → List PDMember} {f : Fault}
    (h : assignMembers app members = .error f) :
    ∃ b, f = .keyError b ∧ b ∉ app.local_users.map Prod.fst :=
  foldRes_err app.resources app f h

/-! ## Characterization of the push stage -/

theorem pushStage_ok_warn {pn : String} {app : CustomApplication}
    {c pe : Bool} {ws : List String} {t : Trace}
    (h : pushStage pn app c pe (.ok ws) = .ok t) :
    t = { stdout := warnLines ws, stderr := [], exitCode := 0,
          providerCreated := !pe,
          pushed := some ⟨pn, app.name ++ " (" ++ app.application_type ++ ")",
                          app⟩ } := by
  cases c with
  | false => simp [pushStage] at h
  | true =>
    simp only [pushStage, if_true] at h
    cases h
    rfl

theorem pushStage_ok_err {pn : String} {app : CustomApplication}
    {c pe : Bool} {e : PushError} {t : Trace}
    (h : pushStage pn app c pe (.err e) = .ok t) :
    t = { stdout := [], stderr := errLines e, exitCode := 0,
          providerCreated := !pe,
          pushed := some ⟨pn, app.name ++ " (" ++ app.application_type ++ ")",
                          app⟩ } := by
  cases c with
  | false => simp [pushStage] at h
  | true =>
    simp only [pushStage, if_true] at h
    cases h
    rfl

/-- Decomposition of a completed Model Builder run. -/
theorem mainRun_ok_inv {users : List PDUser} {teams : List PDTeam}
    {members : String → List PDMember} {c pe : Bool} {outcome : PushOutcome}
    {t : Trace} (h : mainRun users teams members c pe outcome = .ok t) :
    ∃ g g2, buildGraph users teams = .ok g ∧
      assignMembers g members = .ok g2 ∧
      pushStage "Lab-PagerDuty" g2 c pe outcome = .ok t := by
  unfold mainRun at h
  cases hb : buildGraph users teams with
  | error f =>
    rw [hb, error_bind] at h
    cases h
  | ok g =>
    rw [hb, ok_bind] at h
    cases ha : assignMembers g members with
    | error f =>
      rw [ha, error_bind] at h
      cases h
    | ok g2 =>
      rw [ha, ok_bind] at h
      exact ⟨g, g2, rfl, ha, h⟩

/-! ## Base64 round trip -/

theorem sextet_round : ∀ n < 64, charSextet (sextetChar n) = n := by decide

theorem sextetChar_ne_pad : ∀ n < 64, sextetChar n ≠ '=' := by decide

theorem b64decode_b64encode : ∀ (bs : List Nat), (∀ b ∈ bs, b < 256) →
    b64decode (b64encode bs) = bs
  | [], _ => rfl
  | [b1], h => by
    have h1 : b1 < 256 := h b1 (by simp)
    have e1 : charSextet (sextetChar (b1 / 4)) = b1 / 4 :=
      sextet_round _ (by omega)
    have e2 : charSextet (sextetChar (b1 % 4 * 16)) = b1 % 4 * 16 :=
      sextet_round _ (by omega)
    simp only [b64encode, b64decode]
    simp [e1, e2]
    omega
  | [b1, b2], h => by
    have h1 : b1 < 256 := h b1 (by simp)
    have h2 : b2 < 256 := h b2 (by simp)
    have e1 : charSextet (sextetChar (b1 / 4)) = b1 / 4 :=
      sextet_round _ (by omega)
    have e2 : charSextet (sextetChar (b1 % 4 * 16 + b2 / 16)) = b1 % 4 * 16 + b2 / 16 :=
      sextet_round _ (by omega)
    have e3 : charSextet (sextetChar (b2 % 16 * 4)) = b2 % 16 * 4 :=
      sextet_round _ (by omega)
    have ne3 : sextetChar (b2 % 16 * 4) ≠ '=' := sextetChar_ne_pad _ (by omega)
    simp only [b64encode, b64decode]
    simp [e1, e2, e3, ne3]
    omega
  | b1 :: b2 :: b3 :: rest, h => by
    have h1 : b1 < 256 := h b1 (by simp)
    have h2 : b2 < 256 := h b2 (by simp)
    have h3 : b3 < 256 := h b3 (by simp)
    have e1 : charSextet (sextetChar (b1 / 4)) = b1 / 4 :=
      sextet_round _ (by omega)
    have e2 : charSextet (sextetChar (b1 % 4 * 16 + b2 / 16)) = b1 % 4 * 16 + b2 / 16 :=
      sextet_round _ (by omega)
    have e3 : charSextet (sextetChar (b2 % 16 * 4 + b3 / 64)) = b2 % 16 * 4 + b3 / 64 :=
      sextet_round _ (by omega)
    have e4 : charSextet (sextetChar (b3 % 64)) = b3 % 64 :=
      sextet_round _ (by omega)
    have ne3 : sextetChar (b2 % 16 * 4 + b3 / 64) ≠ '=' :=
      sextetChar_ne_pad _ (by omega)
    have ne4 : sextetChar (b3 % 64) ≠ '=' := sextetChar_ne_pad _ (by omega)
    have ih := b64decode_b64encode rest (fun b hb => h b (by simp [hb]))
    simp only [b64encode, b64decode]
    simp only [e1, e2, e3, e4, ih]
    simp [ne3, ne4]
    omega

/-! ## Claims -/

/-- Claim C3, counterexample: a team with a 1025-character description (longer
than the stated 1024-character platform bound) yields a resource whose
description is the first 255 characters of the source description, not the
first 1024 as the claim states. -/
theorem C3_counterexample :
    buildGraph [] [tBig] = Except.ok bigApp ∧
    dictGet bigApp.resources tBig.name = some (mkResource tBig) ∧
    (mkResource tBig).description = some (pySlice dBig 255) ∧
    (mkResource tBig).description ≠ some (pySlice dBig 1024) := by
  refine ⟨by rfl, by rfl, by rfl, by decide⟩

/-- Claim C3, amended: for every team whose source description is longer than
1024 characters, the Model Builder sets the resource's description to the
description truncated to exactly 255 characters (the code truncates with
`[:255]`, not to the 1024-character bound its comment states). -/
theorem C3_description_truncated {users : List PDUser} {teams : List PDTeam}
    {app : CustomApplication} (h : buildGraph users teams = .ok app)
    {t : PDTeam} (ht : t ∈ teams) {d : String} (hd : t.description = some d)
    (hlen : 1024 < d.length) :
    ∃ r, dictGet app.resources t.name = some r ∧
      r.description = some (pySlice d 255) := by
  obtain ⟨-, -, -, -, -, -, -, -, hres, -, -, hnd⟩ := buildGraph_ok h
  refine ⟨mkResource t, ?_, ?_⟩
  · rw [hres]
    exact dictGet_map_key PDTeam.name mkResource teams t ht hnd
  · show descTrunc t.description = _
    rw [hd]
    have hne : ¬ d = "" := by
      intro he
      subst he
      exact absurd hlen (by decide)
    simp [descTrunc, hne]

/-- Witness for the amended C3 at a concrete 1025-character description. -/
theorem C3_description_truncated_witness :
    (1024 < dBig.length) ∧
    (∃ r, dictGet bigApp.resources tBig.name = some r ∧
      r.description = some (pySlice dBig 255)) :=
  ⟨by decide,
   C3_description_truncated
     (show buildGraph [] [tBig] = Except.ok bigApp from rfl) (by simp)
     (show tBig.description = some dBig from rfl) (by decide)⟩

/-- Claim C4, counterexample: resources are not keyed by the source-supplied
team id — `add_resource` is called without a unique id, so the resource
dictionary is keyed by the team's name. -/
theorem C4_counterexample :
    buildGraph [] [tA] = Except.ok aApp ∧
    aApp.resources.map Prod.fst = [tA.name] ∧
    aApp.resources.map Prod.fst ≠ [tA.id] := by
  refine ⟨by rfl, by rfl, by decide⟩

/-- Claim C4, amended: in every successfully built application, local users
and local groups are keyed by the source-supplied ids, resources are keyed by
the team names, and each entity kind's key list is free of duplicates. -/
theorem C4_keys_unique {users : List PDUser} {teams : List PDTeam}
    {app : CustomApplication} (h : buildGraph users teams = .ok app) :
    app.local_users.map Prod.fst = users.map PDUser.id ∧
    app.local_groups.map Prod.fst = teams.map PDTeam.id ∧
    app.resources.map Prod.fst = teams.map PDTeam.name ∧
    (app.local_users.map Prod.fst).Nodup ∧
    (app.local_groups.map Prod.fst).Nodup ∧
    (app.resources.map Prod.fst).Nodup := by
  obtain ⟨-, -, -, -, -, -, hu, hg, hr, ndu, ndg, ndr⟩ := buildGraph_ok h
  refine ⟨?_, ?_, ?_, ?_, ?_, ?_⟩
  · rw [hu, List.map_map]
    rfl
  · rw [hg, List.map_map]
    rfl
  · rw [hr, List.map_map]
    rfl
  · rw [hu, List.map_map]
    exact ndu
  · rw [hg, List.map_map]
    exact ndg
  · rw [hr, List.map_map]
    exact ndr

/-- Witness for the amended C4 at one user and one team. -/
theorem C4_keys_unique_witness :
    buildGraph [uA] [tA] = Except.ok wApp ∧
    (wApp.local_users.map Prod.fst = [uA].map PDUser.id ∧
     wApp.local_groups.map Prod.fst = [tA].map PDTeam.id ∧
     wApp.resources.map Prod.fst = [tA].map PDTeam.name ∧
     (wApp.local_users.map Prod.fst).Nodup ∧
     (wApp.local_groups.map Prod.fst).Nodup ∧
     (wApp.resources.map Prod.fst).Nodup) :=
  ⟨by rfl, C4_keys_unique (show buildGraph [uA] [tA] = Except.ok wApp from rfl)⟩

/-- Claim C5: every source user record processed by the user loop yields a
LocalUser keyed by the record's id whose unique id is the record's id, whose
identity list is exactly the record's email, which holds the record's role at
application scope, and whose email and is_billed custom properties equal the
record's fields. -/
theorem C5_user_mapping {users : List PDUser} {teams : List PDTeam}
    {app : CustomApplication} (h : buildGraph users teams = .ok app)
    {u : PDUser} (hu : u ∈ users) :
    ∃ lu, dictGet app.local_users u.id = some lu ∧
      lu.unique_id = u.id ∧
      lu.identities = [u.email] ∧
      lu.role_assignments = [⟨u.role, true, []⟩] ∧
      dictGet lu.properties "email" = some (PropValue.S u.email) ∧
      dictGet lu.properties "is_billed" = some (PropValue.B u.billed) := by
  obtain ⟨-, -, -, -, -, -, husers, -, -, hnd, -, -⟩ := buildGraph_ok h
  refine ⟨mkLocalUser u, ?_, rfl, rfl, rfl, by rfl, by rfl⟩
  rw [husers]
  exact dictGet_map_key PDUser.id mkLocalUser users u hu hnd

/-- Witness for C5 at the spec's concrete record
`\x7bid: U1, email: a@x.com, role: responder, billed: true\x7d`. -/
theorem C5_user_mapping_witness :
    buildGraph [uA] [tA] = Except.ok wApp ∧
    (∃ lu, dictGet wApp.local_users uA.id = some lu ∧
      lu.unique_id = uA.id ∧
      lu.identities = [uA.email] ∧
      lu.role_assignments = [⟨uA.role, true, []⟩] ∧
      dictGet lu.properties "email" = some (PropValue.S uA.email) ∧
      dictGet lu.properties "is_billed" = some (PropValue.B uA.billed)) :=
  ⟨by rfl,
   C5_user_mapping (show buildGraph [uA] [tA] = Except.ok wApp from rfl)
     (by simp)⟩

/-- Claim C8: the permission catalog has exactly ten entries, each a
non-empty bundle of the five abstract rights; the role catalog has exactly
nine entries, each mapping 1:1 (injectively, by identifier) to one declared
permission; and every successful build carries exactly these static
catalogs, whatever the fetched source data was. -/
theorem C8_static_catalog :
    pdPermissions.length = 10 ∧
    pdRoles.length = 9 ∧
    (∀ p ∈ pdPermissions, p.permissions ≠ [] ∧
      ∀ r ∈ p.permissions,
        r ∈ [OAAPermission.DataRead, OAAPermission.DataWrite,
             OAAPermission.DataDelete, OAAPermission.MetadataRead,
             OAAPermission.MetadataWrite]) ∧
    (∀ ro ∈ pdRoles, ro.permissions = [ro.unique_id] ∧
      ro.unique_id ∈ pdPermissions.map CustomPermission.name) ∧
    (pdRoles.map LocalRole.unique_id).Nodup ∧
    (∀ (users : List PDUser) (teams : List PDTeam) (app : CustomApplication),
      buildGraph users teams = .ok app →
      app.custom_permissions = pdPermissions ∧ app.local_roles = pdRoles) := by
  refine ⟨by decide, by decide, by decide, by decide, by decide, ?_⟩
  intro users teams app h
  obtain ⟨-, -, -, -, hperm, hroles, -, -, -, -, -, -⟩ := buildGraph_ok h
  exact ⟨hperm, hroles⟩

/-- Witness for C8: the empty-data build carries exactly the static catalogs. -/
theorem C8_static_catalog_witness :
    buildGraph [] [] = Except.ok initApp ∧
    initApp.custom_permissions = pdPermissions ∧
    initApp.local_roles = pdRoles :=
  ⟨by rfl, C8_static_catalog.2.2.2.2.2 [] [] initApp (by rfl)⟩

/-- Claim C9: the Seed variant's application declares no entities at all, and
every completed seed run has resolved the provider (creating it exactly when
it was missing) and pushed that well-formed empty graph under the seed
provider and data-source names. -/
theorem C9_seed_empty_graph_push {connOk pe : Bool} {outcome : PushOutcome}
    {t : Trace} (h : seedRun connOk pe outcome = .ok t) :
    seedApp.local_user_properties = [] ∧
    seedApp.resource_properties = [] ∧
    seedApp.custom_permissions = [] ∧
    seedApp.local_roles = [] ∧
    seedApp.local_users = [] ∧
    seedApp.local_groups = [] ∧
    seedApp.resources = [] ∧
    t.pushed = some ⟨"Sample-PagerDuty", "Sample App (PagerDuty)", seedApp⟩ ∧
    t.providerCreated = !pe := by
  have h2 : pushStage "Sample-PagerDuty" seedApp connOk pe outcome = .ok t := h
  cases outcome with
  | ok ws =>
    have ht := pushStage_ok_warn h2
    subst ht
    exact ⟨rfl, rfl, rfl, rfl, rfl, rfl, rfl, rfl, rfl⟩
  | err e =>
    have ht := pushStage_ok_err h2
    subst ht
    exact ⟨rfl, rfl, rfl, rfl, rfl, rfl, rfl, rfl, rfl⟩

/-- Witness for C9 at a concrete warning-free successful seed run. -/
theorem C9_seed_empty_graph_push_witness :
    seedApp.local_user_properties = [] ∧
    seedApp.resource_properties = [] ∧
    seedApp.custom_permissions = [] ∧
    seedApp.local_roles = [] ∧
    seedApp.local_users = [] ∧
    seedApp.local_groups = [] ∧
    seedApp.resources = [] ∧
    seedTrace0.pushed =
      some ⟨"Sample-PagerDuty", "Sample App (PagerDuty)", seedApp⟩ ∧
    seedTrace0.providerCreated = !true :=
  C9_seed_empty_graph_push
    (show seedRun true true (PushOutcome.ok []) = Except.ok seedTrace0 from rfl)

/-- Claim C6: when the push call of the Model Builder or of the Seed variant
returns successfully with a non-empty warning list, every warning is printed
on stdout and the process exits 0. -/
theorem C6_warnings_reported_success {users : List PDUser}
    {teams : List PDTeam} {members : String → List PDMember}
    {c pe c2 pe2 : Bool} {ws : List String} {t t' : Trace}
    (hm : mainRun users teams members c pe (.ok ws) = .ok t)
    (hs : seedRun c2 pe2 (.ok ws) = .ok t')
    (hw : ws ≠ []) :
    ((∀ w ∈ ws, ("  - " ++ w) ∈ t.stdout) ∧ t.exitCode = 0) ∧
    ((∀ w ∈ ws, ("  - " ++ w) ∈ t'.stdout) ∧ t'.exitCode = 0) := by
  obtain ⟨g, g2, -, -, hp⟩ := mainRun_ok_inv hm
  have ht := pushStage_ok_warn hp
  subst ht
  have hs2 : pushStage "Sample-PagerDuty" seedApp c2 pe2 (.ok ws) = .ok t' := hs
  have ht' := pushStage_ok_warn hs2
  subst ht'
  constructor
  · refine ⟨?_, rfl⟩
    intro w hw2
    show ("  - " ++ w) ∈ warnLines ws
    unfold warnLines
    rw [if_neg hw]
    exact List.mem_cons_of_mem _ (List.mem_map_of_mem _ hw2)
  · refine ⟨?_, rfl⟩
    intro w hw2
    show ("  - " ++ w) ∈ warnLines ws
    unfold warnLines
    rw [if_neg hw]
    exact List.mem_cons_of_mem _ (List.mem_map_of_mem _ hw2)

/-- Witness for C6 at a concrete run with one warning. -/
theorem C6_warnings_reported_success_witness :
    (["w1"] ≠ ([] : List String)) ∧
    (((∀ w ∈ ["w1"], ("  - " ++ w) ∈ mainTraceW.stdout) ∧
        mainTraceW.exitCode = 0) ∧
      ((∀ w ∈ ["w1"], ("  - " ++ w) ∈ seedTraceW.stdout) ∧
        seedTraceW.exitCode = 0)) :=
  ⟨by decide,
   @C6_warnings_reported_success [] [] (fun _ => []) true true true true
     ["w1"] mainTraceW seedTraceW (by rfl) (by rfl) (by decide)⟩

/-- Claim C1, counterexample: a Model Builder run whose push raises an error
does not exit with a non-zero status — the handler prints the error and
`main` returns normally, so the process exits 0. -/
theorem C1_counterexample :
    ¬ exitsNonZero (mainRun [] [] (fun _ => []) true true (.err cErr)) := by
  intro hc
  exact hc rfl

/-- Claim C1, amended: when the push call raises a push/API error, the Model
Builder surfaces the remote error's code, message and status on stderr along
with one line per detail, and the process exits with status 0 (the error is
caught and not re-raised). -/
theorem C1_push_error_reported {users : List PDUser} {teams : List PDTeam}
    {members : String → List PDMember} {c pe : Bool} {e : PushError}
    {t : Trace} (h : mainRun users teams members c pe (.err e) = .ok t) :
    errHeader e ∈ t.stderr ∧
    (∀ d ∈ e.details, ("  -- " ++ d) ∈ t.stderr) ∧
    t.exitCode = 0 := by
  obtain ⟨g, g2, -, -, hp⟩ := mainRun_ok_inv h
  have ht := pushStage_ok_err hp
  subst ht
  refine ⟨?_, ?_, rfl⟩
  · show errHeader e ∈ errLines e
    unfold errLines
    exact List.mem_cons_self _ _
  · intro d hd
    show ("  -- " ++ d) ∈ errLines e
    unfold errLines
    exact List.mem_cons_of_mem _ (List.mem_map_of_mem _ hd)

/-- Witness for the amended C1 at a concrete failing push. -/
theorem C1_push_error_reported_witness :
    errHeader cErr ∈ mainTraceE.stderr ∧
    (∀ d ∈ cErr.details, ("  -- " ++ d) ∈ mainTraceE.stderr) ∧
    mainTraceE.exitCode = 0 :=
  @C1_push_error_reported [] [] (fun _ => []) true true cErr mainTraceE
    (by rfl)

/-- Claim C2: evaluation of the CSV Pusher.  At a failing push the handler's
first statement references the undefined name `log`, so the run dies with an
unhandled NameError: nothing is reported on stderr and the exit status is 1,
never the claimed 3.  The connection-failure path does exit 1 and the
success path prints its confirmation and exits 0, as claimed. -/
theorem C2_push_failure_namerror :
    ((csvRun "p1" "d1" none [1, 2, 3] (.err cErr)).fault =
        some "NameError: name 'log' is not defined" ∧
      (csvRun "p1" "d1" none [1, 2, 3] (.err cErr)).exitCode = 1 ∧
      (csvRun "p1" "d1" none [1, 2, 3] (.err cErr)).stderr = []) ∧
    (csvRun "p1" "d1" (some "conn failed") [1, 2, 3] (.err cErr)).exitCode = 1 ∧
    ((csvRun "p1" "d1" none [1, 2, 3] (.ok [])).exitCode = 0 ∧
      "Push succeeded" ∈ (csvRun "p1" "d1" none [1, 2, 3] (.ok [])).stdout) := by
  refine ⟨⟨rfl, rfl, rfl⟩, rfl, rfl, ?_⟩
  decide

/-- Claim C7: for every byte sequence read from the source file, the CSV
Pusher's push body carries the provider id, the data-source id, and a base64
`csv_data` string whose decoding is exactly the original bytes. -/
theorem C7_csv_push_roundtrip (pid dsid : String) (bytes : List Nat)
    (outcome : PushOutcome) (hb : ∀ b ∈ bytes, b < 256) :
    (csvRun pid dsid none bytes outcome).pushed =
      some (csvEndpoint pid dsid,
        { id := pid, data_source_id := dsid,
          csv_data := String.mk (b64encode bytes) }) ∧
    b64decode (String.mk (b64encode bytes)).data = bytes := by
  constructor
  · cases outcome <;> rfl
  · show b64decode (b64encode bytes) = bytes
    exact b64decode_b64encode bytes hb

/-- Witness for C7 at a concrete 10-byte file. -/
theorem C7_csv_push_roundtrip_witness :
    (csvRun "p1" "d1" none bytes10 (PushOutcome.ok [])).pushed =
      some (csvEndpoint "p1" "d1",
        { id := "p1", data_source_id := "d1",
          csv_data := String.mk (b64encode bytes10) }) ∧
    b64decode (String.mk (b64encode bytes10)).data = bytes10 :=
  C7_csv_push_roundtrip "p1" "d1" bytes10 (PushOutcome.ok []) (by decide)

/-- Claim C10: the member-assignment lookup is defined exactly for fetched
user ids: a run that completes implies every member of every fetched team is
among the fetched users, and a member whose user id is absent makes the run
abort with an unhandled KeyError before any push is attempted. -/
theorem C10_member_lookup_keyerror {users : List PDUser}
    {teams : List PDTeam} {members : String → List PDMember} {c pe : Bool}
    {outcome : PushOutcome} {g : CustomApplication}
    (hg : buildGraph users teams = .ok g) :
    (∀ t, mainRun users teams members c pe outcome = .ok t →
      ∀ tm ∈ teams, ∀ m ∈ members tm.id, m.user_id ∈ users.map PDUser.id) ∧
    ((∃ tm ∈ teams, ∃ m ∈ members tm.id, m.user_id ∉ users.map PDUser.id) →
      ∃ b, mainRun users teams members c pe outcome =
        Except.error (Fault.keyError b) ∧ b ∉ users.map PDUser.id) := by
  obtain ⟨-, -, -, -, -, -, hus, -, hres, -, -, -⟩ := buildGraph_ok hg
  have hkeys : g.local_users.map Prod.fst = users.map PDUser.id := by
    rw [hus, List.map_map]
    rfl
  constructor
  · intro t hok tm htm m hm
    obtain ⟨g', g2, hb, ha, -⟩ := mainRun_ok_inv hok
    rw [hg] at hb
    cases hb
    obtain ⟨-, hall⟩ := assignMembers_ok ha
    have he : (tm.name, mkResource tm) ∈ g.resources := by
      rw [hres]
      exact List.mem_map_of_mem _ htm
    have hm2 : m ∈ members (teamIdOf (tm.name, mkResource tm).2) := by
      show m ∈ members (teamIdOf (mkResource tm))
      rw [teamIdOf_mkResource]
      exact hm
    have hx := hall (tm.name, mkResource tm) he m hm2
    rw [hkeys] at hx
    exact hx
  · rintro ⟨tm, htm, m, hm, hnot⟩
    cases ha : assignMembers g members with
    | ok g2 =>
      exfalso
      obtain ⟨-, hall⟩ := assignMembers_ok ha
      have he : (tm.name, mkResource tm) ∈ g.resources := by
        rw [hres]
        exact List.mem_map_of_mem _ htm
      have hm2 : m ∈ members (teamIdOf (tm.name, mkResource tm).2) := by
        show m ∈ members (teamIdOf (mkResource tm))
        rw [teamIdOf_mkResource]
        exact hm
      have hx := hall (tm.name, mkResource tm) he m hm2
      rw [hkeys] at hx
      exact hnot hx
    | error f =>
      obtain ⟨b, hb, hbnot⟩ := assignMembers_err ha
      rw [hkeys] at hbnot
      refine ⟨b, ?_, hbnot⟩
      subst hb
      unfold mainRun
      rw [hg, ok_bind, ha, error_bind]

/-- Witness for C10: a member list naming the unfetched user U9 aborts the
run with a KeyError on U9. -/
theorem C10_member_lookup_keyerror_witness :
    ∃ b, mainRun [] [tA] mem9 true true (PushOutcome.ok []) =
      Except.error (Fault.keyError b) ∧
      b ∉ ([] : List PDUser).map PDUser.id :=
  (@C10_member_lookup_keyerror [] [tA] mem9 true true (PushOutcome.ok [])
      aApp (by rfl)).2
    ⟨tA, by simp, ⟨"U9", "responder"⟩, by simp [mem9], by simp⟩

end Bootcamp
